import Mathlib

/-!
Verification of the BidMonitor orchestration core against its specification.
The definitions below are a shallow embedding of `src/monitor_core.py` and
`src/crawler/custom.py`. External collaborators (the keyword matcher, the AI
relevance guard, the notification channels, the HTML soup and URL joining from
the standard library, and the block-detection heuristic of the base crawler)
enter as parameters: the claims quantify over their possible results. The
persistent store (`database/storage.py`, whose source is not part of this
tree) is modelled from the spec, section 4.3.
-/

namespace BidMonitor

/-- Candidate item, mirroring `BidInfo` (title, url, publish date, source,
optional content). -/
structure Bid where
  title : String
  url : String
  publish_date : String
  source : String
  content : String
  deriving DecidableEq, Repr

/-- Content identity: a stable function of (title, url), per the data model. -/
def sameId (a b : Bid) : Bool := a.title == b.title && a.url == b.url

/-- Stored record: persisted projection of a candidate plus the notified flag. -/
structure StoredRec where
  bid : Bid
  notified : Bool
  deriving DecidableEq, Repr

/-- The dedup store, modelled as the list of saved records. -/
abbrev Store := List StoredRec

/-- Modelled from the spec: `Storage.exists` of `database/storage.py` (absent
from the tree) is a pure membership check on content identity (spec 4.3). -/
def storageExists (st : Store) (b : Bid) : Bool :=
  st.any (fun r => sameId r.bid b)

/-- Modelled from the spec: `Storage.save` of `database/storage.py` records
the item together with its notified flag (spec 4.3). -/
def storageSave (st : Store) (b : Bid) (ntf : Bool) : Store :=
  st ++ [⟨b, ntf⟩]

/-- Modelled from the spec: `Storage.mark_notified` of `database/storage.py`
is a one-way transition of the notified flag on the content identity of the
given item (spec 4.3). -/
def markNotified (st : Store) (b : Bid) : Store :=
  st.map (fun r => if sameId r.bid b then { r with notified := true } else r)

/-- Look up the notified flag of the first record with the identity of `b`. -/
def lookupNotified (st : Store) (b : Bid) : Option Bool :=
  (st.find? (fun r => sameId r.bid b)).map StoredRec.notified

/-! ## Notification dispatch, embedding `MonitorCore._send_notifications` -/

/-- Result of one channel send call: the boolean the channel returned, or an
exception escaping the send (caught by the dispatcher). -/
inductive SendResult
  | ok : Bool → SendResult
  | exn : SendResult
  deriving DecidableEq, Repr

/-- Effect of one channel attempt on the `success` local: a normal return
overwrites it, an exception leaves it unchanged (the assignment never ran). -/
def applySend (prev : Bool) : SendResult → Bool
  | .ok b => b
  | .exn => prev

/-- The notification configuration consulted by `_send_notifications`. -/
structure NotifyCfg where
  notify_method : String
  hasEmailNotifier : Bool
  hasSmsNotifier : Bool
  phone : String
  deriving DecidableEq, Repr

/-- The guard of the email branch of `_send_notifications`. -/
def emailAttempted (cfg : NotifyCfg) : Bool :=
  (cfg.notify_method == "email" || cfg.notify_method == "both")
    && cfg.hasEmailNotifier

/-- The guard of the sms branch of `_send_notifications`. -/
def smsAttempted (cfg : NotifyCfg) : Bool :=
  (cfg.notify_method == "sms" || cfg.notify_method == "both")
    && cfg.hasSmsNotifier

/-- The sms send call itself is additionally guarded by a non-empty phone. -/
def smsEffective (cfg : NotifyCfg) : Bool :=
  smsAttempted cfg && !(cfg.phone == "")

/-- Channel calls made plus the final value of the `success` local. -/
structure NotifOutcome where
  calls : List (String × List Bid)
  success : Bool
  deriving DecidableEq, Repr

/-- Embedding of `MonitorCore._send_notifications` (monitor_core.py 442-469),
up to the marking loop: the email branch runs first and assigns `success`
from its send result; the sms branch runs second and, when a phone number is
present, overwrites `success` with its own send result. An exception in a
send is caught and leaves `success` unchanged. -/
def send_notifications (cfg : NotifyCfg) (emailRes smsRes : SendResult)
    (bids : List Bid) : NotifOutcome :=
  let s0 := false
  let p1 : List (String × List Bid) × Bool :=
    if emailAttempted cfg then ([("email", bids)], applySend s0 emailRes)
    else ([], s0)
  let p2 : List (String × List Bid) × Bool :=
    if smsAttempted cfg then
      if cfg.phone ≠ "" then (p1.1 ++ [("sms", bids)], applySend p1.2 smsRes)
      else p1
    else p1
  ⟨p2.1, p2.2⟩

/-- The trailing marking loop of `_send_notifications` (monitor_core.py
471-473): when `success` is true every bid of the batch is marked notified. -/
def sendAndMark (cfg : NotifyCfg) (emailRes smsRes : SendResult)
    (st : Store) (bids : List Bid) : Store :=
  if (send_notifications cfg emailRes smsRes bids).success then
    bids.foldl markNotified st
  else st

/-- The channels for which `_send_notifications` performs exactly one send
call: email when its branch guard holds, sms when its branch guard holds and
a phone number is configured. -/
def configuredChannels (cfg : NotifyCfg) : List String :=
  (if emailAttempted cfg then ["email"] else [])
    ++ (if smsEffective cfg then ["sms"] else [])

/-! ## Orchestrator, embedding `MonitorCore.run_once` (monitor_core.py 282-440)

The keyword matcher (`matcher/keyword.py`) and the optional AI relevance
guard are external to this tree and enter as the parameters `m` (the boolean
of `match_any`) and `ai` (`none` when no guard is configured, otherwise the
boolean of `check_relevance`). The cooperative stop signal is external and
monotone; its value at each of the read points of the loop is part of the
per-source input (`stopTop` for the check at the loop head, `stopAfter` for
the check after the crawl returned, `stopBid` for the checks inside the
per-item matching loop). Log output, the ai_stats report and the shared
browser shutdown carry no observable state and are omitted. -/

/-- Trace of dedup store operations issued by one cycle. -/
inductive StoreEvent
  | existsQ : Bid → Bool → StoreEvent
  | saveE : Bid → Bool → StoreEvent
  deriving DecidableEq, Repr

/-- The saved items of a trace, in order. -/
def savedBids : List StoreEvent → List Bid
  | [] => []
  | .saveE b _ :: rest => b :: savedBids rest
  | .existsQ _ _ :: rest => savedBids rest

/-- Mutable state of one `run_once` cycle: the store, the trace of store
operations, `all_matched_bids`, `failed_sites`, and the arguments of the
progress callback invocations. -/
structure CycleState where
  store : Store
  trace : List StoreEvent
  acc : List Bid
  failed : List (String × String)
  progress : List (Nat × Nat × String)
  deriving DecidableEq, Repr

/-- The dedup step of the matching loop (monitor_core.py 370-373): query
`exists`, and on a miss `save` with notified false and append the item to
`all_matched_bids`. -/
def dedupSave (s : CycleState) (b : Bid) : CycleState :=
  if storageExists s.store b then
    { s with trace := s.trace ++ [StoreEvent.existsQ b true] }
  else
    { s with
        store := storageSave s.store b false,
        trace := s.trace ++ [StoreEvent.existsQ b false, StoreEvent.saveE b false],
        acc := s.acc ++ [b] }

/-- Body of the per-item matching loop (monitor_core.py 343-373): keyword
match, then the optional AI guard, then dedup and save. -/
def processBid (m : Bid → Bool) (ai : Option (Bid → Bool))
    (s : CycleState) (b : Bid) : CycleState :=
  if m b then
    match ai with
    | some rel => if rel b then dedupSave s b else s
    | none => dedupSave s b
  else s

/-- The per-item matching loop (monitor_core.py 337-373), with the stop
signal read before each item; a set signal breaks the inner loop only. -/
def processBids (m : Bid → Bool) (ai : Option (Bid → Bool))
    (stopBid : Nat → Bool) : Nat → CycleState → List Bid → CycleState
  | _, s, [] => s
  | i, s, b :: rest =>
    if stopBid i then s
    else processBids m ai stopBid (i + 1) (processBid m ai s b) rest

/-- Outcome of one crawler within a cycle: a list of items, a fetch failure
(`crawl` returned None), or an exception escaping `crawl`. -/
inductive CrawlResult
  | ok : List Bid → CrawlResult
  | failedFetch : CrawlResult
  | raised : String → CrawlResult
  deriving Repr

/-- One configured source together with the externally determined outcome of
its crawl and the values the stop signal shows at the read points reached
while this source is current. -/
structure SourceRun where
  name : String
  stopTop : Bool
  result : CrawlResult
  stopAfter : Bool
  stopBid : Nat → Bool

/-- The error string recorded when `crawl` returns None (monitor_core.py
330). -/
def fetchFailMsg : String := "Failed to fetch data (possibly blocked)"

/-- A source run during which the stop signal is never seen set. -/
def noStopRun (r : SourceRun) : Prop :=
  r.stopTop = false ∧ r.stopAfter = false ∧ ∀ n, r.stopBid n = false

/-- Whether the crawl produced a list of items. -/
def isOkResult : CrawlResult → Bool
  | .ok _ => true
  | .failedFetch => false
  | .raised _ => false

/-- The `failed_sites` entries one source contributes. -/
def failedEntriesOf (r : SourceRun) : List (String × String) :=
  match r.result with
  | .raised msg => [(r.name, msg)]
  | .failedFetch => [(r.name, fetchFailMsg)]
  | .ok _ => []

/-- One iteration of the source loop of `run_once` (monitor_core.py
307-379). Returns the new state and whether the loop breaks: the stop signal
at the loop head breaks before the progress callback and the fetch; an
exception of `crawl` is caught and recorded; after a completed crawl the
stop signal is read again and breaks; a None result is recorded as a failed
site; otherwise the matching loop runs. -/
def stepSource (m : Bid → Bool) (ai : Option (Bid → Bool)) (prog : Bool)
    (total idx : Nat) (s : CycleState) (r : SourceRun) : CycleState × Bool :=
  if r.stopTop then (s, true)
  else
    let s1 := if prog then
        { s with progress := s.progress ++ [(idx, total, r.name)] }
      else s
    match r.result with
    | .raised msg => ({ s1 with failed := s1.failed ++ [(r.name, msg)] }, false)
    | .failedFetch =>
        if r.stopAfter then (s1, true)
        else ({ s1 with failed := s1.failed ++ [(r.name, fetchFailMsg)] }, false)
    | .ok bids =>
        if r.stopAfter then (s1, true)
        else (processBids m ai r.stopBid 0 s1 bids, false)

/-- The source loop of `run_once`, with the 1-based index `enumerate`
provides. -/
def runSources (m : Bid → Bool) (ai : Option (Bid → Bool)) (prog : Bool)
    (total : Nat) : Nat → CycleState → List SourceRun → CycleState
  | _, s, [] => s
  | idx, s, r :: rest =>
    let p := stepSource m ai prog total idx s r
    if p.2 then p.1 else runSources m ai prog total (idx + 1) p.1 rest

/-- The result dictionary of `run_once` (monitor_core.py 435-440), without
the log-only `ai_stats` entry. -/
structure Outcome where
  new_count : Nat
  failed_sites : List (String × String)
  total_crawlers : Nat
  deriving DecidableEq, Repr

/-- Everything observable about one cycle: the returned outcome, the final
store, the channel send calls, the store-operation trace, the progress
callback invocations and `all_matched_bids`. -/
structure RunResult where
  outcome : Outcome
  store : Store
  calls : List (String × List Bid)
  trace : List StoreEvent
  progress : List (Nat × Nat × String)
  acc : List Bid
  deriving DecidableEq, Repr

/-- State at the start of a cycle. -/
def initState (st0 : Store) : CycleState := ⟨st0, [], [], [], []⟩

/-- The tail of `run_once` after the source loop (monitor_core.py 381-440):
dispatch notifications once over the accumulated batch when it is non-empty,
then build the result dictionary. -/
def finalizeCycle (cfg : NotifyCfg) (emailRes smsRes : SendResult)
    (total : Nat) (s : CycleState) : RunResult :=
  let notif := if s.acc.isEmpty then NotifOutcome.mk [] false
    else send_notifications cfg emailRes smsRes s.acc
  let st1 := if notif.success then s.acc.foldl markNotified s.store else s.store
  ⟨⟨s.acc.length, s.failed, total⟩, st1, notif.calls, s.trace, s.progress, s.acc⟩

/-- Embedding of `MonitorCore.run_once` (monitor_core.py 282-440). -/
def run_once (m : Bid → Bool) (ai : Option (Bid → Bool)) (prog : Bool)
    (cfg : NotifyCfg) (emailRes smsRes : SendResult) (st0 : Store)
    (runs : List SourceRun) : RunResult :=
  finalizeCycle cfg emailRes smsRes runs.length
    (runSources m ai prog runs.length 1 (initState st0) runs)

/-- The progress callback arguments produced when every source is started:
1-based index, total source count, source name (monitor_core.py 314-315). -/
def expectedProgress (total : Nat) : Nat → List SourceRun → List (Nat × Nat × String)
  | _, [] => []
  | idx, r :: rest => (idx, total, r.name) :: expectedProgress total (idx + 1) rest

/-! ## Trace well-formedness (canonical dedup flow) -/

/-- Whether one store event may follow the previous one: an `exists` query is
always allowed; a `save` only immediately after an `exists` query on the same
item that returned false, and only with notified false. -/
def goodStep : Option StoreEvent → StoreEvent → Bool
  | _, .existsQ _ _ => true
  | some (.existsQ b false), .saveE b2 n => b2 == b && n == false
  | _, .saveE _ _ => false

/-- Checker for the canonical dedup flow over a trace, threading the
previous event. -/
def goodTraceAux : Option StoreEvent → List StoreEvent → Bool
  | _, [] => true
  | prev, e :: rest => goodStep prev e && goodTraceAux (some e) rest

/-- A trace obeys the canonical dedup flow when every save is immediately
preceded by an exists-miss for the same item and records notified false. -/
def goodTrace (t : List StoreEvent) : Bool := goodTraceAux none t

/-! ## Fetch executor retry loop, embedding `CustomCrawler._fetch_hebei_api`
(custom.py 96-135)

The network is external: `att n` is the classified outcome of the posting
attempt with loop counter `n`. The sleeps are real time; what the claims
speak about is the backoff schedule, so the embedding returns the pre-jitter
backoff values (seconds) in order. The actual delay adds `uniform(0, 1)` to
each, and a successful attempt is followed by the separate inter-request
delay `request_delay + uniform(0, 2)` which is not a retry delay. -/

/-- Classified outcome of one posting attempt in `_fetch_hebei_api`: a
transport error (`RequestException`), a JSON body whose result field is not
true, a non-JSON body, or success. -/
inductive AttemptOutcome
  | transportErr
  | resultFalse
  | notJson
  | success
  deriving DecidableEq, Repr

/-- Result of the API fetch loop: whether an attempt succeeded (false means
every attempt failed and the code falls back to the plain HTML fetch), and
the pre-jitter backoff delays slept between attempts, in order. -/
structure FetchLog where
  ok : Bool
  retryDelaysPre : List Nat
  deriving DecidableEq, Repr

/-- The loop `for attempt in range(max_retries)` of `_fetch_hebei_api`: on a
non-success outcome, when further attempts remain, sleep
`2 ** (attempt + 1) + uniform(0, 1)` and continue; the fuel argument counts
the remaining iterations. -/
def hebeiApiAttempts (att : Nat → AttemptOutcome) (maxRetries : Nat) :
    Nat → Nat → FetchLog
  | _, 0 => ⟨false, []⟩
  | attempt, fuel + 1 =>
    match att attempt with
    | .success => ⟨true, []⟩
    | _ =>
      if attempt < maxRetries - 1 then
        let rest := hebeiApiAttempts att maxRetries (attempt + 1) fuel
        ⟨rest.ok, 2 ^ (attempt + 1) :: rest.retryDelaysPre⟩
      else hebeiApiAttempts att maxRetries (attempt + 1) fuel

/-- Embedding of the retry loop of `_fetch_hebei_api`. -/
def fetchHebeiApi (att : Nat → AttemptOutcome) (maxRetries : Nat) : FetchLog :=
  hebeiApiAttempts att maxRetries 0 maxRetries

/-- The pre-jitter retry delay the claim asserts for the k-th retry:
`base_delay * 2 ^ k`, with `base_delay` the configured per-source base
request delay. Stated for comparison with the schedule the code produces. -/
def claimedRetryDelayPre (baseDelay k : Nat) : Nat := baseDelay * 2 ^ k

/-- The pre-jitter backoff schedule the code actually produces when `n`
retries happen, starting at exponent `e`: `2 ^ e, 2 ^ (e+1), ...`, with no
base-delay factor. -/
def backoffDelays (e : Nat) : Nat → List Nat
  | 0 => []
  | n + 1 => 2 ^ e :: backoffDelays (e + 1) n

/-! ## Block detection and exemption, embedding `CustomCrawler.crawl` and the
constructor flags (custom.py 18-44, 370-412)

`_is_blocked` lives in the base crawler outside this tree and the claim
quantifies over the signal it raises, so it enters as the parameter
`isBlocked`. `parse` may raise; a raise is caught, so parsing enters as an
optional result. The query-string parsing of `parse_qs` is standard library;
its extracted `selectype` value (default `zbgg`) is the `selectype` field. -/

/-- Whether `pat` occurs in `s`, over the character lists (the Python `in`
operator on strings). -/
def charsPrefixEq : List Char → List Char → Bool
  | [], _ => true
  | _ :: _, [] => false
  | a :: as, b :: bs => a == b && charsPrefixEq as bs

/-- Substring occurrence over character lists. -/
def charsContain (pat : List Char) : List Char → Bool
  | [] => charsPrefixEq pat []
  | c :: rest => charsPrefixEq pat (c :: rest) || charsContain pat rest

/-- Substring test on strings. -/
def strContains (s pat : String) : Bool := charsContain pat.data s.data

/-- The Hebei API detection of the constructor (custom.py 23):
`szj.hebei.gov.cn` and `/zbtbfwpt/` both occur in the configured URL. -/
def hebeiApiOf (url : String) : Bool :=
  strContains url "szj.hebei.gov.cn" && strContains url "/zbtbfwpt/"

/-- The endpoint map of the constructor (custom.py 32-42), defaulting to
`zbgg.do`. -/
def endpointOf (selectype : String) : String :=
  if selectype == "zbgg" then "zbgg.do"
  else if selectype == "bggg" then "bggg.do"
  else if selectype == "dygs" then "dygs.do"
  else if selectype == "kbjl" then "kbjl.do"
  else if selectype == "pbgs" then "pbgs.do"
  else if selectype == "zhongbgg" then "zhongbgg.do"
  else if selectype == "qylx" then "qylx.do"
  else if selectype == "zbpro" then "zbpro.do"
  else "zbgg.do"

/-- Static per-source configuration of a `CustomCrawler`: its name, URL and
the `selectype` query parameter of the URL (default `zbgg`). -/
structure CrawlerCfg where
  name : String
  url : String
  selectype : String
  deriving DecidableEq, Repr

/-- The block-check exemption used in `crawl` (custom.py 394): the source is
the Hebei API and its endpoint is `zbpro.do`. Computed from the configured
URL alone in the constructor, never from a fetched payload. -/
def zbproExemption (c : CrawlerCfg) : Bool :=
  hebeiApiOf c.url && (endpointOf c.selectype == "zbpro.do")

/-- Observable result of `CustomCrawler.crawl` on its single list URL: how
many fetch calls were made, the items returned, and whether the blocked
branch fired. -/
structure CrawlStep where
  fetchCalls : Nat
  items : List Bid
  blockedHit : Bool
  deriving DecidableEq, Repr

/-- Embedding of `CustomCrawler.crawl` (custom.py 370-412) for its single
list URL. `stop1` and `stop2` are the stop signal values at the two reads
before the fetch; `html` is the fetched payload (empty string for a falsy
fetch result); `parseFn` is `parse` with `none` for a raised exception. -/
def customCrawl (c : CrawlerCfg) (isBlocked : String → Bool)
    (parseFn : String → Option (List Bid)) (html : String)
    (stop1 stop2 : Bool) : CrawlStep :=
  if stop1 then ⟨0, [], false⟩
  else if stop2 then ⟨0, [], false⟩
  else if html == "" then ⟨1, [], false⟩
  else if zbproExemption c then ⟨1, (parseFn html).getD [], false⟩
  else if isBlocked html then ⟨1, [], true⟩
  else ⟨1, (parseFn html).getD [], false⟩

/-! ## Generic HTML parsing, embedding `CustomCrawler._parse_html_generic`
(custom.py 332-368) and `_parse_hebei_zbpro_html` (custom.py 232-275)

BeautifulSoup is external: the anchors of the page (stripped text plus href)
are the input. `urljoin` is standard library and enters as the parameter
`join`; the claim itself reads absolute as joined against the base URL. -/

/-- One anchor of the page: the stripped text and the href attribute. -/
structure Anchor where
  text : String
  href : String
  deriving DecidableEq, Repr

/-- The href scheme filter shared by both parsers: lowercased href starting
with javascript:, #, mailto: or tel:. -/
def hrefSchemeBad (href : String) : Bool :=
  let h := href.toLower
  h.startsWith "javascript:" || h.startsWith "#"
    || h.startsWith "mailto:" || h.startsWith "tel:"

/-- The anchor filter of `_parse_html_generic`: non-empty text of at least 4
characters, and no filtered scheme. -/
def genericKeep (a : Anchor) : Bool :=
  !(a.text == "") && !(a.text.length < 4) && !(hrefSchemeBad a.href)

/-- The anchor filter of `_parse_hebei_zbpro_html`: additionally the href
must contain `/infogk/detail.do` and `categoryid=zbjhgg`. -/
def zbproKeep (a : Anchor) : Bool :=
  strContains a.href "/infogk/detail.do"
    && strContains a.href "categoryid=zbjhgg"
    && !(a.text == "") && !(a.text.length < 4) && !(hrefSchemeBad a.href)

/-- The shared loop body of both parsers: keep anchors passing the filter,
join the href against the base URL, and skip URLs already seen. -/
def collectAnchors (keep : Anchor → Bool) (join : String → String → String)
    (baseUrl today src : String) : List Anchor → List String → List Bid
  | [], _ => []
  | a :: rest, seen =>
    if keep a then
      let full := join baseUrl a.href
      if full ∈ seen then collectAnchors keep join baseUrl today src rest seen
      else ⟨a.text, full, today, src, ""⟩
        :: collectAnchors keep join baseUrl today src rest (full :: seen)
    else collectAnchors keep join baseUrl today src rest seen

/-- Embedding of `_parse_html_generic`. -/
def parseHtmlGeneric (join : String → String → String)
    (baseUrl today src : String) (anchors : List Anchor) : List Bid :=
  collectAnchors genericKeep join baseUrl today src anchors []

/-- Embedding of `_parse_hebei_zbpro_html`. -/
def parseHebeiZbproHtml (join : String → String → String)
    (baseUrl today src : String) (anchors : List Anchor) : List Bid :=
  collectAnchors zbproKeep join baseUrl today src anchors []

/-! ## Concrete sample inputs used by the witness theorems -/

/-- A sample candidate item. -/
def sampleBid1 : Bid :=
  ⟨"Software Procurement Notice", "http://x/1", "2026-01-01", "s1", ""⟩

/-- A second sample candidate item. -/
def sampleBid2 : Bid :=
  ⟨"Software Tender Notice", "http://x/2", "2026-01-01", "s2", ""⟩

/-- A source whose crawl returns one item, with the stop signal unset. -/
def okSource1 : SourceRun :=
  ⟨"s1", false, CrawlResult.ok [sampleBid1], false, fun _ => false⟩

/-- A second source whose crawl returns one item. -/
def okSource2 : SourceRun :=
  ⟨"s2", false, CrawlResult.ok [sampleBid2], false, fun _ => false⟩

/-- A source whose crawl raises an exception. -/
def badSource : SourceRun :=
  ⟨"sBad", false, CrawlResult.raised "boom", false, fun _ => false⟩

/-- A source at whose loop-head check the stop signal is first seen set. -/
def stopSource : SourceRun :=
  ⟨"sStop", true, CrawlResult.ok [], false, fun _ => false⟩

/-- A sample notification configuration with both channels usable. -/
def sampleCfg : NotifyCfg := ⟨"both", true, true, "13800000000"⟩

/-! ## Helper lemmas -/

theorem savedBids_append (t1 t2 : List StoreEvent) :
    savedBids (t1 ++ t2) = savedBids t1 ++ savedBids t2 := by
  induction t1 with
  | nil => rfl
  | cons e rest ih => cases e <;> simp [savedBids, ih]

theorem storageExists_markNotified (st : Store) (c b : Bid) :
    storageExists (markNotified st c) b = storageExists st b := by
  simp only [storageExists, markNotified, List.any_map]
  congr 1
  funext r
  by_cases h : sameId r.bid c = true <;> simp [Function.comp, h]

theorem lookupNotified_markNotified_self (st : Store) (b : Bid)
    (h : storageExists st b = true) :
    lookupNotified (markNotified st b) b = some true := by
  induction st with
  | nil => simp [storageExists] at h
  | cons r rest ih =>
    by_cases hr : sameId r.bid b = true
    · simp [markNotified, lookupNotified, List.find?, hr]
    · have h2 : storageExists rest b = true := by
        simp only [storageExists, List.any_cons, Bool.or_eq_true] at h
        rcases h with h | h
        · exact absurd h hr
        · simpa [storageExists] using h
      have := ih h2
      simpa [markNotified, lookupNotified, List.find?, hr] using this

theorem lookupNotified_markNotified_mono (st : Store) (c b : Bid)
    (h : lookupNotified st b = some true) :
    lookupNotified (markNotified st c) b = some true := by
  induction st with
  | nil => simp [lookupNotified] at h
  | cons r rest ih =>
    by_cases hr : sameId r.bid b = true
    · have hn : r.notified = true := by
        simpa [lookupNotified, List.find?, hr] using h
      by_cases hc : sameId r.bid c = true <;>
        simp [markNotified, lookupNotified, List.find?, hr, hc, hn]
    · have h2 : lookupNotified rest b = some true := by
        simpa [lookupNotified, List.find?, hr] using h
      have := ih h2
      by_cases hc : sameId r.bid c = true <;>
        simpa [markNotified, lookupNotified, List.find?, hr, hc] using this

theorem lookupNotified_foldl_mono (bids : List Bid) (st : Store) (b : Bid)
    (h : lookupNotified st b = some true) :
    lookupNotified (bids.foldl markNotified st) b = some true := by
  induction bids generalizing st with
  | nil => simpa using h
  | cons c rest ih =>
    simpa using ih (markNotified st c) (lookupNotified_markNotified_mono st c b h)

theorem lookupNotified_foldl_mark (bids : List Bid) (st : Store) (b : Bid)
    (hmem : b ∈ bids) (hex : storageExists st b = true) :
    lookupNotified (bids.foldl markNotified st) b = some true := by
  induction bids generalizing st with
  | nil => simp at hmem
  | cons c rest ih =>
    rcases List.mem_cons.mp hmem with hbc | hbr
    · subst hbc
      simpa using lookupNotified_foldl_mono rest (markNotified st b) b
        (lookupNotified_markNotified_self st b hex)
    · simpa using ih (markNotified st c) hbr
        (by rw [storageExists_markNotified]; exact hex)

/-! ## Claim C1 -/

/-- Claim C1 as stated is false at a concrete input: with notify method
`both`, both notifiers configured and a phone number present, the email send
returns true (one channel reported success for the batch) and the sms send
returns false; yet the final `success` flag is false because the sms branch
overwrote the email result, so `mark_notified` is not called and the stored
item keeps notified = false. -/
theorem C1_counterexample :
    (send_notifications ⟨"both", true, true, "13800000000"⟩
        (SendResult.ok true) (SendResult.ok false)
        [⟨"t", "u", "d", "s", ""⟩]).success = false
    ∧ lookupNotified
        (sendAndMark ⟨"both", true, true, "13800000000"⟩
          (SendResult.ok true) (SendResult.ok false)
          [⟨⟨"t", "u", "d", "s", ""⟩, false⟩]
          [⟨"t", "u", "d", "s", ""⟩])
        ⟨"t", "u", "d", "s", ""⟩ = some false := by
  constructor <;> decide

/-- Claim C1, amended: after one dispatch, the batch is marked notified in
the store iff the final value of the `success` flag is true, where each
attempted channel that returns normally overwrites the flag with its own
result (the sms attempt happens only when a phone number is configured) and
a channel that raises leaves the flag unchanged. Hence the batch is marked
iff the sms channel was attempted with a phone number and returned true, or
the email channel returned true and the sms attempt did not overwrite it
(not attempted, no phone, or raised). In particular, if every channel fails
the batch keeps notified = false; but success of the email channel alone
does not suffice when a later sms send returns false. -/
theorem C1_amended (cfg : NotifyCfg) (eR sR : SendResult) (st : Store)
    (bids : List Bid) :
    ((send_notifications cfg eR sR bids).success = true ↔
      ((smsEffective cfg = true ∧ sR = SendResult.ok true) ∨
        (emailAttempted cfg = true ∧ eR = SendResult.ok true ∧
          (smsEffective cfg = false ∨ sR = SendResult.exn))))
    ∧ ((send_notifications cfg eR sR bids).success = false →
        sendAndMark cfg eR sR st bids = st)
    ∧ ((send_notifications cfg eR sR bids).success = true →
        ∀ b ∈ bids, storageExists st b = true →
          lookupNotified (sendAndMark cfg eR sR st bids) b = some true) := by
  refine ⟨?_, ?_, ?_⟩
  · by_cases hE : emailAttempted cfg = true <;>
      by_cases hS : smsAttempted cfg = true <;>
      by_cases hP : cfg.phone = "" <;>
      cases eR <;> cases sR <;>
      simp [send_notifications, smsEffective, applySend, hE, hS, hP]
  · intro h
    simp [sendAndMark, h]
  · intro h b hb hex
    simp only [sendAndMark, h, if_true]
    exact lookupNotified_foldl_mark bids st b hb hex

/-- Witness for the amended claim C1: a successful sms send marks the stored
batch item notified. -/
theorem C1_amended_witness :
    lookupNotified
      (sendAndMark ⟨"both", true, true, "13800000000"⟩
        (SendResult.ok false) (SendResult.ok true)
        [⟨⟨"t", "u", "d", "s", ""⟩, false⟩]
        [⟨"t", "u", "d", "s", ""⟩])
      ⟨"t", "u", "d", "s", ""⟩ = some true :=
  (C1_amended ⟨"both", true, true, "13800000000"⟩ (SendResult.ok false)
      (SendResult.ok true) [⟨⟨"t", "u", "d", "s", ""⟩, false⟩]
      [⟨"t", "u", "d", "s", ""⟩]).2.2
    (by decide) ⟨"t", "u", "d", "s", ""⟩ (by decide) (by decide)

/-! ## Cycle-state lemmas -/

theorem goodTraceAux_append_existsQ (p : Option StoreEvent)
    (t : List StoreEvent) (b : Bid) (v : Bool) :
    goodTraceAux p (t ++ [StoreEvent.existsQ b v]) = goodTraceAux p t := by
  induction t generalizing p with
  | nil => simp [goodTraceAux, goodStep]
  | cons e rest ih => simp [goodTraceAux, ih]

theorem goodTraceAux_append_save (p : Option StoreEvent)
    (t : List StoreEvent) (b : Bid) :
    goodTraceAux p (t ++ [StoreEvent.existsQ b false, StoreEvent.saveE b false])
      = goodTraceAux p t := by
  induction t generalizing p with
  | nil => simp [goodTraceAux, goodStep]
  | cons e rest ih => simp [goodTraceAux, ih]

theorem dedupSave_pres (s : CycleState) (b : Bid) :
    (dedupSave s b).failed = s.failed ∧ (dedupSave s b).progress = s.progress := by
  unfold dedupSave
  by_cases hex : storageExists s.store b = true <;> simp [hex]

theorem processBid_pres (m : Bid → Bool) (ai : Option (Bid → Bool))
    (s : CycleState) (b : Bid) :
    (processBid m ai s b).failed = s.failed
      ∧ (processBid m ai s b).progress = s.progress := by
  unfold processBid
  by_cases hm : m b = true
  · cases ai with
    | none => simpa [hm] using dedupSave_pres s b
    | some rel =>
      by_cases hr : rel b = true
      · simpa [hm, hr] using dedupSave_pres s b
      · simp [hm, hr]
  · simp [hm]

theorem processBids_pres (m : Bid → Bool) (ai : Option (Bid → Bool))
    (sb : Nat → Bool) :
    ∀ (bids : List Bid) (i : Nat) (s : CycleState),
      (processBids m ai sb i s bids).failed = s.failed
        ∧ (processBids m ai sb i s bids).progress = s.progress := by
  intro bids
  induction bids with
  | nil => intro i s; simp [processBids]
  | cons b rest ih =>
    intro i s
    by_cases hsb : sb i = true
    · simp [processBids, hsb]
    · have h1 := processBid_pres m ai s b
      have h2 := ih (i + 1) (processBid m ai s b)
      simp only [processBids, hsb, if_false, Bool.false_eq_true]
      exact ⟨h2.1.trans h1.1, h2.2.trans h1.2⟩

theorem dedupSave_inv (s : CycleState) (b : Bid)
    (h1 : s.acc = savedBids s.trace) (h2 : goodTrace s.trace = true) :
    (dedupSave s b).acc = savedBids (dedupSave s b).trace
      ∧ goodTrace (dedupSave s b).trace = true := by
  unfold dedupSave
  by_cases hex : storageExists s.store b = true <;>
    simp [hex, goodTrace, savedBids_append, savedBids, h1,
      goodTraceAux_append_existsQ, goodTraceAux_append_save] <;>
    exact h2

theorem processBid_inv (m : Bid → Bool) (ai : Option (Bid → Bool))
    (s : CycleState) (b : Bid)
    (h1 : s.acc = savedBids s.trace) (h2 : goodTrace s.trace = true) :
    (processBid m ai s b).acc = savedBids (processBid m ai s b).trace
      ∧ goodTrace (processBid m ai s b).trace = true := by
  unfold processBid
  by_cases hm : m b = true
  · cases ai with
    | none => simpa [hm] using dedupSave_inv s b h1 h2
    | some rel =>
      by_cases hr : rel b = true
      · simpa [hm, hr] using dedupSave_inv s b h1 h2
      · simp [hm, hr, h1, h2]
  · simp [hm, h1, h2]

theorem processBids_inv (m : Bid → Bool) (ai : Option (Bid → Bool))
    (sb : Nat → Bool) :
    ∀ (bids : List Bid) (i : Nat) (s : CycleState),
      s.acc = savedBids s.trace → goodTrace s.trace = true →
      (processBids m ai sb i s bids).acc
          = savedBids (processBids m ai sb i s bids).trace
        ∧ goodTrace (processBids m ai sb i s bids).trace = true := by
  intro bids
  induction bids with
  | nil => intro i s h1 h2; simpa [processBids] using ⟨h1, h2⟩
  | cons b rest ih =>
    intro i s h1 h2
    by_cases hsb : sb i = true
    · simpa [processBids, hsb] using ⟨h1, h2⟩
    · have hb := processBid_inv m ai s b h1 h2
      have := ih (i + 1) (processBid m ai s b) hb.1 hb.2
      simpa [processBids, hsb] using this

theorem stepSource_pres (m : Bid → Bool) (ai : Option (Bid → Bool))
    (prog : Bool) (total idx : Nat) (s : CycleState) (r : SourceRun)
    (h1 : s.acc = savedBids s.trace) (h2 : goodTrace s.trace = true) :
    (stepSource m ai prog total idx s r).1.acc
        = savedBids (stepSource m ai prog total idx s r).1.trace
      ∧ goodTrace (stepSource m ai prog total idx s r).1.trace = true := by
  unfold stepSource
  by_cases ht : r.stopTop = true
  · simpa [ht] using ⟨h1, h2⟩
  · cases hres : r.result with
    | raised msg =>
      by_cases hp : prog = true <;> simp [ht, hp, h1, h2, hres]
    | failedFetch =>
      by_cases ha : r.stopAfter = true <;>
        by_cases hp : prog = true <;> simp [ht, ha, hp, h1, h2, hres]
    | ok bids =>
      by_cases ha : r.stopAfter = true
      · by_cases hp : prog = true <;> simp [ht, ha, hp, h1, h2, hres]
      · by_cases hp : prog = true <;>
          · have := processBids_inv m ai r.stopBid bids 0
              (if prog then
                { s with progress := s.progress ++ [(idx, total, r.name)] }
                else s)
              (by simp [hp, h1]) (by simp [hp, h2])
            simpa [ht, ha, hp, hres] using this

theorem runSources_inv (m : Bid → Bool) (ai : Option (Bid → Bool))
    (prog : Bool) (total : Nat) :
    ∀ (runs : List SourceRun) (idx : Nat) (s : CycleState),
      s.acc = savedBids s.trace → goodTrace s.trace = true →
      (runSources m ai prog total idx s runs).acc
          = savedBids (runSources m ai prog total idx s runs).trace
        ∧ goodTrace (runSources m ai prog total idx s runs).trace = true := by
  intro runs
  induction runs with
  | nil => intro idx s h1 h2; simpa [runSources] using ⟨h1, h2⟩
  | cons r rest ih =>
    intro idx s h1 h2
    have hs := stepSource_pres m ai prog total idx s r h1 h2
    by_cases hb : (stepSource m ai prog total idx s r).2 = true
    · simpa [runSources, hb] using hs
    · have := ih (idx + 1) (stepSource m ai prog total idx s r).1 hs.1 hs.2
      simpa [runSources, hb] using this

theorem stepSource_noStop (m : Bid → Bool) (ai : Option (Bid → Bool))
    (prog : Bool) (total idx : Nat) (s : CycleState) (r : SourceRun)
    (h : noStopRun r) :
    (stepSource m ai prog total idx s r).2 = false
    ∧ (stepSource m ai prog total idx s r).1.failed
        = s.failed ++ failedEntriesOf r
    ∧ (stepSource m ai prog total idx s r).1.progress
        = s.progress ++ (if prog then [(idx, total, r.name)] else []) := by
  obtain ⟨h1, h2, _⟩ := h
  unfold stepSource
  cases hres : r.result with
  | raised msg =>
    by_cases hp : prog = true <;> simp [h1, h2, hp, failedEntriesOf, hres]
  | failedFetch =>
    by_cases hp : prog = true <;> simp [h1, h2, hp, failedEntriesOf, hres]
  | ok bids =>
    have hpres := processBids_pres m ai r.stopBid bids 0
      (if prog then { s with progress := s.progress ++ [(idx, total, r.name)] }
        else s)
    by_cases hp : prog = true <;>
      simp [h1, h2, hp, failedEntriesOf, hres] at hpres ⊢ <;>
      exact ⟨hpres.1, hpres.2⟩

theorem runSources_noStop (m : Bid → Bool) (ai : Option (Bid → Bool))
    (prog : Bool) (total : Nat) :
    ∀ (runs : List SourceRun) (idx : Nat) (s : CycleState),
      (∀ r ∈ runs, noStopRun r) →
      (runSources m ai prog total idx s runs).failed
          = s.failed ++ (runs.map failedEntriesOf).flatten
        ∧ (runSources m ai prog total idx s runs).progress
          = s.progress ++ (if prog then expectedProgress total idx runs else []) := by
  intro runs
  induction runs with
  | nil =>
    intro idx s _
    by_cases hp : prog = true <;> simp [runSources, hp, expectedProgress]
  | cons r rest ih =>
    intro idx s h
    have hr := stepSource_noStop m ai prog total idx s r (h r (by simp))
    have htail := ih (idx + 1) (stepSource m ai prog total idx s r).1
      (fun x hx => h x (by simp [hx]))
    rw [runSources, hr.1]
    simp only [Bool.false_eq_true, if_false]
    refine ⟨?_, ?_⟩
    · rw [htail.1, hr.2.1]
      simp [List.append_assoc]
    · rw [htail.2, hr.2.2]
      by_cases hp : prog = true <;> simp [hp, expectedProgress, List.append_assoc]

theorem runSources_break (m : Bid → Bool) (ai : Option (Bid → Bool))
    (prog : Bool) (total : Nat) :
    ∀ (pre : List SourceRun) (rstop : SourceRun) (post : List SourceRun)
      (idx : Nat) (s : CycleState),
      (∀ r ∈ pre, noStopRun r) → rstop.stopTop = true →
      runSources m ai prog total idx s (pre ++ rstop :: post)
        = runSources m ai prog total idx s pre := by
  intro pre
  induction pre with
  | nil =>
    intro rstop post idx s _ hstop
    simp [runSources, stepSource, hstop]
  | cons r rest ih =>
    intro rstop post idx s h hstop
    have hr := stepSource_noStop m ai prog total idx s r (h r (by simp))
    rw [List.cons_append, runSources, hr.1, runSources, hr.1]
    simp only [Bool.false_eq_true, if_false]
    exact ih rstop post (idx + 1) (stepSource m ai prog total idx s r).1
      (fun x hx => h x (by simp [hx])) hstop

theorem dedupSave_core (s t : CycleState) (b : Bid)
    (h1 : s.store = t.store) (h2 : s.trace = t.trace) (h3 : s.acc = t.acc) :
    (dedupSave s b).store = (dedupSave t b).store
    ∧ (dedupSave s b).trace = (dedupSave t b).trace
    ∧ (dedupSave s b).acc = (dedupSave t b).acc := by
  unfold dedupSave
  rw [h1]
  by_cases hex : storageExists t.store b = true <;> simp [hex, h1, h2, h3]

theorem processBid_core (m : Bid → Bool) (ai : Option (Bid → Bool))
    (s t : CycleState) (b : Bid)
    (h1 : s.store = t.store) (h2 : s.trace = t.trace) (h3 : s.acc = t.acc) :
    (processBid m ai s b).store = (processBid m ai t b).store
    ∧ (processBid m ai s b).trace = (processBid m ai t b).trace
    ∧ (processBid m ai s b).acc = (processBid m ai t b).acc := by
  unfold processBid
  by_cases hm : m b = true
  · cases ai with
    | none => simpa [hm] using dedupSave_core s t b h1 h2 h3
    | some rel =>
      by_cases hr : rel b = true
      · simpa [hm, hr] using dedupSave_core s t b h1 h2 h3
      · simpa [hm, hr] using ⟨h1, h2, h3⟩
  · simpa [hm] using ⟨h1, h2, h3⟩

theorem processBids_core (m : Bid → Bool) (ai : Option (Bid → Bool))
    (sb : Nat → Bool) :
    ∀ (bids : List Bid) (i : Nat) (s t : CycleState),
      s.store = t.store → s.trace = t.trace → s.acc = t.acc →
      (processBids m ai sb i s bids).store = (processBids m ai sb i t bids).store
      ∧ (processBids m ai sb i s bids).trace = (processBids m ai sb i t bids).trace
      ∧ (processBids m ai sb i s bids).acc = (processBids m ai sb i t bids).acc := by
  intro bids
  induction bids with
  | nil => intro i s t h1 h2 h3; simpa [processBids] using ⟨h1, h2, h3⟩
  | cons b rest ih =>
    intro i s t h1 h2 h3
    by_cases hsb : sb i = true
    · simpa [processBids, hsb] using ⟨h1, h2, h3⟩
    · have hb := processBid_core m ai s t b h1 h2 h3
      have := ih (i + 1) (processBid m ai s b) (processBid m ai t b)
        hb.1 hb.2.1 hb.2.2
      simpa [processBids, hsb] using this

theorem stepSource_core (m : Bid → Bool) (ai : Option (Bid → Bool))
    (p q : Bool) (total idx : Nat) (s t : CycleState) (r : SourceRun)
    (h1 : s.store = t.store) (h2 : s.trace = t.trace) (h3 : s.acc = t.acc)
    (h4 : s.failed = t.failed) :
    (stepSource m ai p total idx s r).2 = (stepSource m ai q total idx t r).2
    ∧ (stepSource m ai p total idx s r).1.store
        = (stepSource m ai q total idx t r).1.store
    ∧ (stepSource m ai p total idx s r).1.trace
        = (stepSource m ai q total idx t r).1.trace
    ∧ (stepSource m ai p total idx s r).1.acc
        = (stepSource m ai q total idx t r).1.acc
    ∧ (stepSource m ai p total idx s r).1.failed
        = (stepSource m ai q total idx t r).1.failed := by
  unfold stepSource
  by_cases ht : r.stopTop = true
  · simpa [ht] using ⟨h1, h2, h3, h4⟩
  · cases hres : r.result with
    | raised msg =>
      by_cases hp : p = true <;> by_cases hq : q = true <;>
        simpa [ht, hp, hq, hres] using ⟨h1, h2, h3, h4⟩
    | failedFetch =>
      by_cases ha : r.stopAfter = true <;>
        by_cases hp : p = true <;> by_cases hq : q = true <;>
        simpa [ht, ha, hp, hq, hres] using ⟨h1, h2, h3, h4⟩
    | ok bids =>
      by_cases ha : r.stopAfter = true
      · by_cases hp : p = true <;> by_cases hq : q = true <;>
          simpa [ht, ha, hp, hq, hres] using ⟨h1, h2, h3, h4⟩
      · have s1 : CycleState := s
        have hcore := processBids_core m ai r.stopBid bids 0
          (if p then { s with progress := s.progress ++ [(idx, total, r.name)] }
            else s)
          (if q then { t with progress := t.progress ++ [(idx, total, r.name)] }
            else t)
          (by by_cases hp : p = true <;> by_cases hq : q = true <;>
            simp [hp, hq, h1])
          (by by_cases hp : p = true <;> by_cases hq : q = true <;>
            simp [hp, hq, h2])
          (by by_cases hp : p = true <;> by_cases hq : q = true <;>
            simp [hp, hq, h3])
        have hpres1 := processBids_pres m ai r.stopBid bids 0
          (if p then { s with progress := s.progress ++ [(idx, total, r.name)] }
            else s)
        have hpres2 := processBids_pres m ai r.stopBid bids 0
          (if q then { t with progress := t.progress ++ [(idx, total, r.name)] }
            else t)
        by_cases hp : p = true <;> by_cases hq : q = true <;>
          simp [ht, ha, hp, hq, hres] at hcore hpres1 hpres2 ⊢ <;>
          exact ⟨hcore.1, hcore.2.1, hcore.2.2,
            by rw [hpres1.1, hpres2.1, h4]⟩

theorem runSources_core (m : Bid → Bool) (ai : Option (Bid → Bool))
    (p q : Bool) (total : Nat) :
    ∀ (runs : List SourceRun) (idx : Nat) (s t : CycleState),
      s.store = t.store → s.trace = t.trace → s.acc = t.acc →
      s.failed = t.failed →
      (runSources m ai p total idx s runs).store
          = (runSources m ai q total idx t runs).store
      ∧ (runSources m ai p total idx s runs).trace
          = (runSources m ai q total idx t runs).trace
      ∧ (runSources m ai p total idx s runs).acc
          = (runSources m ai q total idx t runs).acc
      ∧ (runSources m ai p total idx s runs).failed
          = (runSources m ai q total idx t runs).failed := by
  intro runs
  induction runs with
  | nil => intro idx s t h1 h2 h3 h4; simpa [runSources] using ⟨h1, h2, h3, h4⟩
  | cons r rest ih =>
    intro idx s t h1 h2 h3 h4
    have hstep := stepSource_core m ai p q total idx s t r h1 h2 h3 h4
    rw [runSources, runSources, ← hstep.1]
    by_cases hb : (stepSource m ai p total idx s r).2 = true
    · simpa [hb] using ⟨hstep.2.1, hstep.2.2.1, hstep.2.2.2.1, hstep.2.2.2.2⟩
    · have := ih (idx + 1) (stepSource m ai p total idx s r).1
        (stepSource m ai q total idx t r).1
        hstep.2.1 hstep.2.2.1 hstep.2.2.2.1 hstep.2.2.2.2
      simpa [hb] using this

theorem send_notifications_calls (cfg : NotifyCfg) (eR sR : SendResult)
    (bids : List Bid) :
    (send_notifications cfg eR sR bids).calls.map Prod.fst
        = configuredChannels cfg
    ∧ ∀ call ∈ (send_notifications cfg eR sR bids).calls, call.2 = bids := by
  by_cases hE : emailAttempted cfg = true <;>
    by_cases hS : smsAttempted cfg = true <;>
    by_cases hP : cfg.phone = "" <;>
    simp [send_notifications, configuredChannels, smsEffective, hE, hS, hP]

theorem failedEntriesOf_ok (r : SourceRun) (h : isOkResult r.result = true) :
    failedEntriesOf r = [] := by
  cases hres : r.result with
  | ok bids => simp [failedEntriesOf, hres]
  | failedFetch => rw [hres] at h; simp [isOkResult] at h
  | raised msg => rw [hres] at h; simp [isOkResult] at h

theorem failedEntriesOf_fail (r : SourceRun) (h : isOkResult r.result = false) :
    ∃ msg, failedEntriesOf r = [(r.name, msg)] := by
  cases hres : r.result with
  | ok bids => rw [hres] at h; simp [isOkResult] at h
  | failedFetch => exact ⟨fetchFailMsg, by simp [failedEntriesOf, hres]⟩
  | raised msg => exact ⟨msg, by simp [failedEntriesOf, hres]⟩

/-! ## Claim C2 -/

/-- Claim C2: notification dispatch is batched per cycle. Whenever the cycle
accumulated at least one newly matched item, the dispatcher is invoked once
over the whole accumulated batch: the channel send calls are exactly one per
configured channel, in order, and every call carries the full accumulated
list (which equals the items saved in this cycle, in order); when no new
item matched, no channel call is made. -/
theorem C2_batched_dispatch (m : Bid → Bool) (ai : Option (Bid → Bool))
    (prog : Bool) (cfg : NotifyCfg) (eR sR : SendResult) (st0 : Store)
    (runs : List SourceRun) :
    ((run_once m ai prog cfg eR sR st0 runs).acc ≠ [] →
      (run_once m ai prog cfg eR sR st0 runs).calls.map Prod.fst
          = configuredChannels cfg
      ∧ ∀ call ∈ (run_once m ai prog cfg eR sR st0 runs).calls,
          call.2 = (run_once m ai prog cfg eR sR st0 runs).acc)
    ∧ ((run_once m ai prog cfg eR sR st0 runs).acc = [] →
        (run_once m ai prog cfg eR sR st0 runs).calls = [])
    ∧ (run_once m ai prog cfg eR sR st0 runs).acc
        = savedBids (run_once m ai prog cfg eR sR st0 runs).trace := by
  have hinv := runSources_inv m ai prog runs.length runs 1 (initState st0)
    (by simp [initState, savedBids]) (by simp [initState, goodTrace, goodTraceAux])
  refine ⟨?_, ?_, ?_⟩
  · intro hne
    have hne2 : (runSources m ai prog runs.length 1 (initState st0) runs).acc ≠ [] := by
      simpa [run_once, finalizeCycle] using hne
    have hcalls := send_notifications_calls cfg eR sR
      (runSources m ai prog runs.length 1 (initState st0) runs).acc
    simp only [run_once, finalizeCycle, List.isEmpty_eq_true, hne2, if_false]
    exact hcalls
  · intro hz
    have hz2 : (runSources m ai prog runs.length 1 (initState st0) runs).acc = [] := by
      simpa [run_once, finalizeCycle] using hz
    simp [run_once, finalizeCycle, hz2]
  · simpa [run_once, finalizeCycle] using hinv.1

/-- Witness for claim C2: one cycle over two sources with one new match each
makes exactly one email call and one sms call, each carrying both items. -/
theorem C2_batched_dispatch_witness :
    (run_once (fun _ => true) none true sampleCfg (SendResult.ok true)
        (SendResult.ok true) [] [okSource1, okSource2]).calls.map Prod.fst
        = configuredChannels sampleCfg
    ∧ ∀ call ∈ (run_once (fun _ => true) none true sampleCfg
        (SendResult.ok true) (SendResult.ok true) [] [okSource1, okSource2]).calls,
        call.2 = (run_once (fun _ => true) none true sampleCfg
          (SendResult.ok true) (SendResult.ok true) [] [okSource1, okSource2]).acc :=
  (C2_batched_dispatch (fun _ => true) none true sampleCfg (SendResult.ok true)
      (SendResult.ok true) [] [okSource1, okSource2]).1
    (by decide)

/-! ## Claim C3 -/

/-- Claim C3: per-source failure isolation. When, with the stop signal never
set, exactly one source fails (its crawl raises, or returns None) and every
other source crawls successfully, the cycle completes: the progress sequence
shows every source was started, the outcome counts all sources, and the
failed-source list contains exactly one entry naming the failing source. The
embedding of the source loop is total, so no crawler exception escapes
`run_once` by construction. -/
theorem C3_failure_isolation (m : Bid → Bool) (ai : Option (Bid → Bool))
    (cfg : NotifyCfg) (eR sR : SendResult) (st0 : Store)
    (pre post : List SourceRun) (rk : SourceRun)
    (hns : ∀ r ∈ pre ++ rk :: post, noStopRun r)
    (hpre : ∀ r ∈ pre, isOkResult r.result = true)
    (hpost : ∀ r ∈ post, isOkResult r.result = true)
    (hk : isOkResult rk.result = false) :
    (∃ msg, (run_once m ai true cfg eR sR st0
        (pre ++ rk :: post)).outcome.failed_sites = [(rk.name, msg)])
    ∧ (run_once m ai true cfg eR sR st0 (pre ++ rk :: post)).progress
        = expectedProgress (pre ++ rk :: post).length 1 (pre ++ rk :: post)
    ∧ (run_once m ai true cfg eR sR st0
        (pre ++ rk :: post)).outcome.total_crawlers
        = (pre ++ rk :: post).length := by
  have hrun := runSources_noStop m ai true (pre ++ rk :: post).length
    (pre ++ rk :: post) 1 (initState st0) hns
  obtain ⟨msg, hmsg⟩ := failedEntriesOf_fail rk hk
  have hjoin : ((pre ++ rk :: post).map failedEntriesOf).flatten
      = [(rk.name, msg)] := by
    have hpre0 : (pre.map failedEntriesOf).flatten = [] := by
      rw [List.flatten_eq_nil_iff]
      intro l hl
      obtain ⟨r, hr, rfl⟩ := List.mem_map.mp hl
      exact failedEntriesOf_ok r (hpre r hr)
    have hpost0 : (post.map failedEntriesOf).flatten = [] := by
      rw [List.flatten_eq_nil_iff]
      intro l hl
      obtain ⟨r, hr, rfl⟩ := List.mem_map.mp hl
      exact failedEntriesOf_ok r (hpost r hr)
    simp [List.map_append, List.flatten_append, hpre0, hpost0, hmsg]
  refine ⟨⟨msg, ?_⟩, ?_, ?_⟩
  · have hfail : (runSources m ai true (pre ++ rk :: post).length 1
        (initState st0) (pre ++ rk :: post)).failed = [(rk.name, msg)] := by
      rw [hrun.1]
      rw [show (initState st0).failed = [] from rfl, List.nil_append]
      exact hjoin
    simp only [run_once, finalizeCycle]
    exact hfail
  · simp only [run_once, finalizeCycle]
    rw [hrun.2]
    simp [initState]
  · simp [run_once, finalizeCycle]

/-- Witness for claim C3: two healthy sources around one raising source
yield exactly one failed entry and a three-entry progress sequence. -/
theorem C3_failure_isolation_witness :
    (∃ msg, (run_once (fun _ => true) none true sampleCfg (SendResult.ok true)
        (SendResult.ok true) [] ([okSource1] ++ badSource :: [okSource2])).outcome.failed_sites
        = [(badSource.name, msg)])
    ∧ (run_once (fun _ => true) none true sampleCfg (SendResult.ok true)
        (SendResult.ok true) [] ([okSource1] ++ badSource :: [okSource2])).progress
        = expectedProgress ([okSource1] ++ badSource :: [okSource2]).length 1
            ([okSource1] ++ badSource :: [okSource2])
    ∧ (run_once (fun _ => true) none true sampleCfg (SendResult.ok true)
        (SendResult.ok true) []
        ([okSource1] ++ badSource :: [okSource2])).outcome.total_crawlers
        = ([okSource1] ++ badSource :: [okSource2]).length :=
  C3_failure_isolation (fun _ => true) none sampleCfg (SendResult.ok true)
    (SendResult.ok true) [] [okSource1] [okSource2] badSource
    (by
      intro r hr
      simp [okSource1, okSource2, badSource] at hr
      rcases hr with rfl | rfl | rfl <;>
        exact ⟨rfl, rfl, fun _ => rfl⟩)
    (by
      intro r hr
      simp at hr
      subst hr
      rfl)
    (by
      intro r hr
      simp at hr
      subst hr
      rfl)
    rfl

/-! ## Claim C4 -/

/-- Claim C4: cooperative cancellation. The stop signal is read at the head
of the source loop, before the progress callback and the fetch of the
current source. If the signal is first seen set at the head check of some
source, that source and all later ones are never started, and the cycle
equals processing only the earlier sources: all their saved and accumulated
work stands, notifications are still dispatched once over the accumulated
newly-matched batch, and a cycle outcome is still returned (with
total_crawlers the full configured count). -/
theorem C4_cancellation (m : Bid → Bool) (ai : Option (Bid → Bool))
    (prog : Bool) (cfg : NotifyCfg) (eR sR : SendResult) (st0 : Store)
    (pre : List SourceRun) (rstop : SourceRun) (post : List SourceRun)
    (hpre : ∀ r ∈ pre, noStopRun r) (hstop : rstop.stopTop = true) :
    run_once m ai prog cfg eR sR st0 (pre ++ rstop :: post)
      = finalizeCycle cfg eR sR (pre ++ rstop :: post).length
          (runSources m ai prog (pre ++ rstop :: post).length 1
            (initState st0) pre) := by
  unfold run_once
  rw [runSources_break m ai prog (pre ++ rstop :: post).length pre rstop post 1
    (initState st0) hpre hstop]

/-- Witness for claim C4: with the signal set at the second source, the
cycle equals processing the first source alone, still notifying and
reporting the full source count. -/
theorem C4_cancellation_witness :
    run_once (fun _ => true) none true sampleCfg (SendResult.ok true)
        (SendResult.ok true) [] ([okSource1] ++ stopSource :: [okSource2])
      = finalizeCycle sampleCfg (SendResult.ok true) (SendResult.ok true)
          ([okSource1] ++ stopSource :: [okSource2]).length
          (runSources (fun _ => true) none true
            ([okSource1] ++ stopSource :: [okSource2]).length 1
            (initState []) [okSource1]) :=
  C4_cancellation (fun _ => true) none true sampleCfg (SendResult.ok true)
    (SendResult.ok true) [] [okSource1] stopSource [okSource2]
    (by
      intro r hr
      simp [okSource1] at hr
      subst hr
      exact ⟨rfl, rfl, fun _ => rfl⟩)
    rfl

/-! ## Claim C5 -/

/-- Claim C5: the output contract of a cycle. Every run returns an outcome
record whose new_count equals the number of items saved as newly matched in
this cycle, whose failed_sites field is the list of (name, error) entries
accumulated over the sources, and whose total_crawlers equals the number of
configured sources; an empty source list yields the outcome
(new_count 0, no failed sites, total 0) with the store untouched, not an
error. -/
theorem C5_cycle_outcome (m : Bid → Bool) (ai : Option (Bid → Bool))
    (prog : Bool) (cfg : NotifyCfg) (eR sR : SendResult) (st0 : Store)
    (runs : List SourceRun) :
    (run_once m ai prog cfg eR sR st0 runs).outcome.new_count
        = (savedBids (run_once m ai prog cfg eR sR st0 runs).trace).length
    ∧ (run_once m ai prog cfg eR sR st0 runs).outcome.total_crawlers
        = runs.length
    ∧ (runs = [] → run_once m ai prog cfg eR sR st0 runs
        = ⟨⟨0, [], 0⟩, st0, [], [], [], []⟩) := by
  have hinv := runSources_inv m ai prog runs.length runs 1 (initState st0)
    (by simp [initState, savedBids]) (by simp [initState, goodTrace, goodTraceAux])
  refine ⟨?_, ?_, ?_⟩
  · simpa [run_once, finalizeCycle] using congrArg List.length hinv.1
  · simp [run_once, finalizeCycle]
  · intro h
    subst h
    rfl

/-- Witness for claim C5: the empty source list yields the zero outcome. -/
theorem C5_cycle_outcome_witness :
    run_once (fun _ => true) none true sampleCfg (SendResult.ok true)
        (SendResult.ok true) [] []
      = ⟨⟨0, [], 0⟩, [], [], [], [], []⟩ :=
  (C5_cycle_outcome (fun _ => true) none true sampleCfg (SendResult.ok true)
      (SendResult.ok true) [] []).2.2 rfl

/-! ## Claim C8 -/

/-- Claim C8: the canonical dedup flow. In every cycle, every `save` issued
to the store is immediately preceded by an `exists` query on the same item
that returned false, every save records the item with notified = false, and
the accumulated newly-matched list is exactly the list of saved items, so an
item whose `exists` query returned true is neither saved at that point nor
counted. -/
theorem C8_dedup_flow (m : Bid → Bool) (ai : Option (Bid → Bool))
    (prog : Bool) (cfg : NotifyCfg) (eR sR : SendResult) (st0 : Store)
    (runs : List SourceRun) :
    goodTrace (run_once m ai prog cfg eR sR st0 runs).trace = true
    ∧ (run_once m ai prog cfg eR sR st0 runs).acc
        = savedBids (run_once m ai prog cfg eR sR st0 runs).trace := by
  have hinv := runSources_inv m ai prog runs.length runs 1 (initState st0)
    (by simp [initState, savedBids]) (by simp [initState, goodTrace, goodTraceAux])
  exact ⟨by simpa [run_once, finalizeCycle] using hinv.2,
    by simpa [run_once, finalizeCycle] using hinv.1⟩

/-! ## Claim C9 -/

/-- Claim C9: progress reporting is advisory and non-interfering. For every
fixed sequence of crawler results, the returned outcome, final store,
channel calls, store trace and accumulated batch are identical whether or
not a progress callback is supplied; and, when the stop signal never fires,
the callback is invoked exactly once before each source with the 1-based
index, the total source count and the source name. -/
theorem C9_progress_advisory (m : Bid → Bool) (ai : Option (Bid → Bool))
    (cfg : NotifyCfg) (eR sR : SendResult) (st0 : Store)
    (runs : List SourceRun) :
    ((run_once m ai true cfg eR sR st0 runs).outcome
        = (run_once m ai false cfg eR sR st0 runs).outcome
      ∧ (run_once m ai true cfg eR sR st0 runs).store
        = (run_once m ai false cfg eR sR st0 runs).store
      ∧ (run_once m ai true cfg eR sR st0 runs).calls
        = (run_once m ai false cfg eR sR st0 runs).calls
      ∧ (run_once m ai true cfg eR sR st0 runs).trace
        = (run_once m ai false cfg eR sR st0 runs).trace
      ∧ (run_once m ai true cfg eR sR st0 runs).acc
        = (run_once m ai false cfg eR sR st0 runs).acc)
    ∧ ((∀ r ∈ runs, noStopRun r) →
        (run_once m ai true cfg eR sR st0 runs).progress
          = expectedProgress runs.length 1 runs) := by
  have hcore := runSources_core m ai true false runs.length runs 1
    (initState st0) (initState st0) rfl rfl rfl rfl
  obtain ⟨hstore, htrace, hacc, hfailed⟩ := hcore
  refine ⟨⟨?_, ?_, ?_, ?_, ?_⟩, ?_⟩
  · simp [run_once, finalizeCycle, hacc, hfailed]
  · simp [run_once, finalizeCycle, hacc, hstore]
  · simp [run_once, finalizeCycle, hacc]
  · simp [run_once, finalizeCycle, htrace]
  · simp [run_once, finalizeCycle, hacc]
  · intro hns
    have := (runSources_noStop m ai true runs.length runs 1 (initState st0) hns).2
    simpa [run_once, finalizeCycle, initState] using this

/-- Witness for claim C9: a concrete two-source cycle where the progress
sequence is (1, 2, s1), (2, 2, s2). -/
theorem C9_progress_advisory_witness :
    (run_once (fun _ => true) none true sampleCfg (SendResult.ok true)
        (SendResult.ok true) [] [okSource1, okSource2]).progress
      = expectedProgress [okSource1, okSource2].length 1 [okSource1, okSource2] :=
  (C9_progress_advisory (fun _ => true) none sampleCfg (SendResult.ok true)
      (SendResult.ok true) [] [okSource1, okSource2]).2
    (by
      intro r hr
      simp [okSource1, okSource2] at hr
      rcases hr with rfl | rfl <;> exact ⟨rfl, rfl, fun _ => rfl⟩)

/-! ## Retry loop lemmas -/

theorem backoffDelays_length : ∀ (n e : Nat), (backoffDelays e n).length = n := by
  intro n
  induction n with
  | zero => intro e; rfl
  | succ k ih => intro e; simp [backoffDelays, ih]

theorem backoffDelays_lb : ∀ (n e : Nat), ∀ x ∈ backoffDelays e n, 2 ^ e ≤ x := by
  intro n
  induction n with
  | zero => intro e x hx; simp [backoffDelays] at hx
  | succ k ih =>
    intro e x hx
    simp only [backoffDelays, List.mem_cons] at hx
    rcases hx with rfl | hx
    · exact le_refl _
    · exact le_trans (Nat.pow_le_pow_right (by norm_num) (Nat.le_succ e))
        (ih (e + 1) x hx)

theorem backoffDelays_pairwise : ∀ (n e : Nat),
    List.Pairwise (fun x y => x ≤ y) (backoffDelays e n) := by
  intro n
  induction n with
  | zero => intro e; simp [backoffDelays]
  | succ k ih =>
    intro e
    refine List.Pairwise.cons ?_ (ih (e + 1))
    intro y hy
    exact le_trans (Nat.pow_le_pow_right (by norm_num) (Nat.le_succ e))
      (backoffDelays_lb k (e + 1) y hy)

theorem hebeiApiAttempts_success (att : Nat → AttemptOutcome) (maxRetries : Nat) :
    ∀ (fuel a k : Nat), a + fuel = maxRetries → a ≤ k → k < maxRetries →
      att k = AttemptOutcome.success →
      (∀ i, a ≤ i → i < k → att i ≠ AttemptOutcome.success) →
      hebeiApiAttempts att maxRetries a fuel
        = ⟨true, backoffDelays (a + 1) (k - a)⟩ := by
  intro fuel
  induction fuel with
  | zero => intro a k hsum hak hk _ _; omega
  | succ n ih =>
    intro a k hsum hak hk hs hf
    by_cases hak2 : a = k
    · subst hak2
      simp [hebeiApiAttempts, hs, Nat.sub_self, backoffDelays]
    · have haltk : a < k := lt_of_le_of_ne hak hak2
      have hne := hf a le_rfl haltk
      have hlt : a < maxRetries - 1 := by omega
      have step : hebeiApiAttempts att maxRetries a (n + 1)
          = ⟨(hebeiApiAttempts att maxRetries (a + 1) n).ok,
              2 ^ (a + 1) :: (hebeiApiAttempts att maxRetries (a + 1) n).retryDelaysPre⟩ := by
        cases hatt : att a with
        | success => exact absurd hatt hne
        | transportErr => simp [hebeiApiAttempts, hatt, hlt]
        | resultFalse => simp [hebeiApiAttempts, hatt, hlt]
        | notJson => simp [hebeiApiAttempts, hatt, hlt]
      rw [step, ih (a + 1) k (by omega) (by omega) hk hs
        (fun i h1 h2 => hf i (by omega) h2)]
      have hka : k - a = (k - (a + 1)) + 1 := by omega
      rw [hka]
      simp [backoffDelays]

/-! ## Claim C6 -/

/-- Claim C6 as stated is false at a concrete input: the code of
`_fetch_hebei_api` sleeps `2 ** (attempt + 1) + uniform(0, 1)` before a
retry, with no factor of the configured per-source base delay. With the base
request delay configured as 3 seconds and one transport failure before
success, the code sleeps a pre-jitter delay of 2 seconds before the first
retry, while the claimed formula gives 3 * 2 ^ 1 = 6; since the jitter lies
in [0, 1), the actual delay is below 3 and the claimed one at least 6, so no
jitter values reconcile them. -/
theorem C6_counterexample :
    fetchHebeiApi (fun n => if n = 0 then AttemptOutcome.transportErr
        else AttemptOutcome.success) 2
      = ⟨true, [2]⟩
    ∧ claimedRetryDelayPre 3 1 = 6
    ∧ (2 : Nat) + 1 ≤ 6 := by
  refine ⟨by decide, by decide, by decide⟩

/-- Claim C6, amended: on transport error or a malformed-response signal the
fetch loop retries while attempts remain (at most max_retries total
attempts, hence at most max_retries - 1 retries), and the pre-jitter delay
before the k-th retry is 2 ^ k seconds (attempt counting from 1), with a
uniform jitter in [0, 1) added on top; the backoff does not scale with the
configured base delay. The pre-jitter delays are monotonically
non-decreasing, and when the first success happens within the attempt
budget the fetch returns that success after exactly as many retries as
failed attempts. -/
theorem C6_amended (att : Nat → AttemptOutcome) (maxRetries k : Nat)
    (hk : k < maxRetries) (hs : att k = AttemptOutcome.success)
    (hf : ∀ i, i < k → att i ≠ AttemptOutcome.success) :
    fetchHebeiApi att maxRetries = ⟨true, backoffDelays 1 k⟩
    ∧ (fetchHebeiApi att maxRetries).retryDelaysPre.length = k
    ∧ List.Pairwise (fun x y => x ≤ y)
        (fetchHebeiApi att maxRetries).retryDelaysPre
    ∧ k ≤ maxRetries - 1 := by
  have h := hebeiApiAttempts_success att maxRetries maxRetries 0 k
    (by omega) (Nat.zero_le k) hk hs (fun i _ h2 => hf i h2)
  have hfe : fetchHebeiApi att maxRetries = ⟨true, backoffDelays 1 k⟩ := by
    simpa [fetchHebeiApi] using h
  refine ⟨hfe, ?_, ?_, by omega⟩
  · rw [hfe]
    exact backoffDelays_length k 1
  · rw [hfe]
    exact backoffDelays_pairwise k 1

/-- Witness for the amended claim C6: two failures then success with
max_retries = 3 give a successful fetch after exactly the pre-jitter backoff
schedule [2, 4]. -/
theorem C6_amended_witness :
    fetchHebeiApi (fun n => if n < 2 then AttemptOutcome.transportErr
        else AttemptOutcome.success) 3
      = ⟨true, backoffDelays 1 2⟩
    ∧ (fetchHebeiApi (fun n => if n < 2 then AttemptOutcome.transportErr
        else AttemptOutcome.success) 3).retryDelaysPre.length = 2
    ∧ List.Pairwise (fun x y => x ≤ y)
        (fetchHebeiApi (fun n => if n < 2 then AttemptOutcome.transportErr
          else AttemptOutcome.success) 3).retryDelaysPre
    ∧ 2 ≤ 3 - 1 :=
  C6_amended (fun n => if n < 2 then AttemptOutcome.transportErr
      else AttemptOutcome.success) 3 2 (by decide) (by decide)
    (fun i hi => by simp [hi])

/-! ## Claim C7 -/

/-- Claim C7: block detection and exemption in `CustomCrawler.crawl`. When
the fetched payload raises the block signal and the exemption is unset, the
crawl classifies the URL as blocked after exactly one fetch call, with no
retry of the request and no parsing; when the exemption holds (the static
zbpro flag, computed in the constructor from the configured URL and its
selectype query parameter, never from a payload), the payload bypasses the
block check and is parsed normally even if the signal would fire. -/
theorem C7_block_exemption (c : CrawlerCfg) (isBlocked : String → Bool)
    (parseFn : String → Option (List Bid)) (html : String)
    (hh : html ≠ "") :
    (zbproExemption c = false → isBlocked html = true →
      customCrawl c isBlocked parseFn html false false = ⟨1, [], true⟩)
    ∧ (zbproExemption c = true →
      customCrawl c isBlocked parseFn html false false
        = ⟨1, (parseFn html).getD [], false⟩) := by
  constructor
  · intro hz hb
    simp [customCrawl, hh, hz, hb]
  · intro hz
    simp [customCrawl, hh, hz]

/-- Witness for claim C7: a non-exempt source with a blocked payload is
classified blocked with one fetch and no items, while the Hebei zbpro source
parses the very same payload. -/
theorem C7_block_exemption_witness :
    customCrawl ⟨"plain", "http://www.dlzb.com/", "zbgg"⟩ (fun _ => true)
        (fun _ => some [sampleBid1]) "<html>captcha</html>" false false
      = ⟨1, [], true⟩
    ∧ customCrawl
        ⟨"hebei", "https://szj.hebei.gov.cn/zbtbfwpt/tender/xxgk/list.do?selectype=zbpro", "zbpro"⟩
        (fun _ => true) (fun _ => some [sampleBid1]) "<html>captcha</html>"
        false false
      = ⟨1, [sampleBid1], false⟩ :=
  ⟨(C7_block_exemption ⟨"plain", "http://www.dlzb.com/", "zbgg"⟩ (fun _ => true)
      (fun _ => some [sampleBid1]) "<html>captcha</html>" (by decide)).1
      (by decide) rfl,
    (C7_block_exemption
      ⟨"hebei", "https://szj.hebei.gov.cn/zbtbfwpt/tender/xxgk/list.do?selectype=zbpro", "zbpro"⟩
      (fun _ => true) (fun _ => some [sampleBid1]) "<html>captcha</html>"
      (by decide)).2 (by decide)⟩

/-! ## Parser lemmas -/

theorem collectAnchors_mem (keep : Anchor → Bool)
    (join : String → String → String) (baseUrl today src : String) :
    ∀ (anchors : List Anchor) (seen : List String),
      ∀ b ∈ collectAnchors keep join baseUrl today src anchors seen,
        b.url ∉ seen
        ∧ ∃ a ∈ anchors, keep a = true ∧ b.title = a.text
            ∧ b.url = join baseUrl a.href := by
  intro anchors
  induction anchors with
  | nil => intro seen b hb; simp [collectAnchors] at hb
  | cons a rest ih =>
    intro seen b hb
    by_cases hk : keep a = true
    · by_cases hseen : join baseUrl a.href ∈ seen
      · rw [collectAnchors] at hb
        simp only [hk, if_true, hseen, if_pos] at hb
        obtain ⟨h1, aa, haa, hrest⟩ := ih seen b hb
        exact ⟨h1, aa, List.mem_cons_of_mem a haa, hrest⟩
      · rw [collectAnchors] at hb
        simp only [hk, if_true, hseen, if_neg, not_false_iff,
          List.mem_cons] at hb
        rcases hb with rfl | hb
        · exact ⟨hseen, a, List.mem_cons_self a rest, hk, rfl, rfl⟩
        · obtain ⟨h1, aa, haa, hrest⟩ :=
            ih (join baseUrl a.href :: seen) b hb
          refine ⟨fun hs => h1 (List.mem_cons_of_mem _ hs),
            aa, List.mem_cons_of_mem a haa, hrest⟩
    · rw [collectAnchors] at hb
      simp only [hk, if_neg, Bool.false_eq_true, if_false] at hb
      obtain ⟨h1, aa, haa, hrest⟩ := ih seen b hb
      exact ⟨h1, aa, List.mem_cons_of_mem a haa, hrest⟩

theorem collectAnchors_nodup (keep : Anchor → Bool)
    (join : String → String → String) (baseUrl today src : String) :
    ∀ (anchors : List Anchor) (seen : List String),
      (List.map Bid.url
        (collectAnchors keep join baseUrl today src anchors seen)).Nodup := by
  intro anchors
  induction anchors with
  | nil => intro seen; simp [collectAnchors]
  | cons a rest ih =>
    intro seen
    by_cases hk : keep a = true
    · by_cases hseen : join baseUrl a.href ∈ seen
      · rw [collectAnchors]
        simp only [hk, if_true, hseen, if_pos]
        exact ih seen
      · rw [collectAnchors]
        simp only [hk, if_true, hseen, if_neg, not_false_iff, List.map_cons]
        rw [List.nodup_cons]
        refine ⟨?_, ih (join baseUrl a.href :: seen)⟩
        intro hmem
        obtain ⟨b, hb, hurl⟩ := List.mem_map.mp hmem
        have := (collectAnchors_mem keep join baseUrl today src rest
          (join baseUrl a.href :: seen) b hb).1
        exact this (by rw [hurl]; exact List.mem_cons_self _ _)
    · rw [collectAnchors]
      simp only [hk, if_neg, Bool.false_eq_true, if_false]
      exact ih seen

theorem genericKeep_title (a : Anchor) (h : genericKeep a = true) :
    4 ≤ a.text.length ∧ a.text ≠ "" := by
  simp only [genericKeep, Bool.and_eq_true, Bool.not_eq_true',
    beq_eq_false_iff_ne, ne_eq, decide_eq_false_iff_not, not_lt] at h
  exact ⟨h.1.2, h.1.1⟩

theorem zbproKeep_title (a : Anchor) (h : zbproKeep a = true) :
    4 ≤ a.text.length ∧ a.text ≠ "" := by
  simp only [zbproKeep, Bool.and_eq_true, Bool.not_eq_true',
    beq_eq_false_iff_ne, ne_eq, decide_eq_false_iff_not, not_lt] at h
  exact ⟨h.1.2, h.1.1.2⟩

/-! ## Claim C10 -/

/-- Claim C10: parser output invariants. Every item produced by the generic
HTML parser, and likewise by the Hebei zbpro parser, has a non-empty title
of at least 4 characters and a URL obtained by joining an anchor href of the
page against the base URL of the source, and no two items of one parse
result share the same URL. -/
theorem C10_parser_invariants (join : String → String → String)
    (baseUrl today src : String) (anchors : List Anchor) :
    (∀ b ∈ parseHtmlGeneric join baseUrl today src anchors,
      4 ≤ b.title.length ∧ b.title ≠ ""
        ∧ ∃ a ∈ anchors, b.url = join baseUrl a.href)
    ∧ (List.map Bid.url (parseHtmlGeneric join baseUrl today src anchors)).Nodup
    ∧ (∀ b ∈ parseHebeiZbproHtml join baseUrl today src anchors,
      4 ≤ b.title.length ∧ b.title ≠ ""
        ∧ ∃ a ∈ anchors, b.url = join baseUrl a.href)
    ∧ (List.map Bid.url
        (parseHebeiZbproHtml join baseUrl today src anchors)).Nodup := by
  refine ⟨?_, ?_, ?_, ?_⟩
  · intro b hb
    obtain ⟨_, a, haa, hk, ht, hu⟩ := collectAnchors_mem genericKeep join
      baseUrl today src anchors [] b hb
    obtain ⟨hlen, hne⟩ := genericKeep_title a hk
    exact ⟨ht ▸ hlen, ht ▸ hne, a, haa, hu⟩
  · exact collectAnchors_nodup genericKeep join baseUrl today src anchors []
  · intro b hb
    obtain ⟨_, a, haa, hk, ht, hu⟩ := collectAnchors_mem zbproKeep join
      baseUrl today src anchors [] b hb
    obtain ⟨hlen, hne⟩ := zbproKeep_title a hk
    exact ⟨ht ▸ hlen, ht ▸ hne, a, haa, hu⟩
  · exact collectAnchors_nodup zbproKeep join baseUrl today src anchors []

/-- Witness for claim C10 at a concrete page: a short-titled anchor and a
duplicate URL are filtered, the produced items keep the invariants. -/
theorem C10_parser_invariants_witness :
    (∀ b ∈ parseHtmlGeneric (fun x y => x ++ y) "http://x/" "2026-01-01" "s"
        [⟨"Software Procurement", "a.html"⟩, ⟨"ab", "b.html"⟩,
          ⟨"Another Procurement", "a.html"⟩],
      4 ≤ b.title.length ∧ b.title ≠ ""
        ∧ ∃ a ∈ [⟨"Software Procurement", "a.html"⟩, ⟨"ab", "b.html"⟩,
            (⟨"Another Procurement", "a.html"⟩ : Anchor)],
            b.url = (fun x y => x ++ y) "http://x/" a.href)
    ∧ (List.map Bid.url (parseHtmlGeneric (fun x y => x ++ y) "http://x/"
        "2026-01-01" "s" [⟨"Software Procurement", "a.html"⟩, ⟨"ab", "b.html"⟩,
          ⟨"Another Procurement", "a.html"⟩])).Nodup
    ∧ (∀ b ∈ parseHebeiZbproHtml (fun x y => x ++ y) "http://x/" "2026-01-01"
        "s" [⟨"Software Procurement", "a.html"⟩, ⟨"ab", "b.html"⟩,
          ⟨"Another Procurement", "a.html"⟩],
      4 ≤ b.title.length ∧ b.title ≠ ""
        ∧ ∃ a ∈ [⟨"Software Procurement", "a.html"⟩, ⟨"ab", "b.html"⟩,
            (⟨"Another Procurement", "a.html"⟩ : Anchor)],
            b.url = (fun x y => x ++ y) "http://x/" a.href)
    ∧ (List.map Bid.url (parseHebeiZbproHtml (fun x y => x ++ y) "http://x/"
        "2026-01-01" "s" [⟨"Software Procurement", "a.html"⟩, ⟨"ab", "b.html"⟩,
          ⟨"Another Procurement", "a.html"⟩])).Nodup :=
  C10_parser_invariants (fun x y => x ++ y) "http://x/" "2026-01-01" "s"
    [⟨"Software Procurement", "a.html"⟩, ⟨"ab", "b.html"⟩,
      ⟨"Another Procurement", "a.html"⟩]

end BidMonitor
